import Mathlib

/-!
Shallow embedding of the bandcamp-downloader core
(src/bandcamp_downloader/__init__.py and constants.py).

Strings are modelled as lists of characters; the filesystem as an
association list from paths to file sizes; network responses as explicit
per-attempt values; the mutable CONFIG dictionary as an immutable record
threaded through the functions.  Percent-decoding is modelled at byte
level (each decoded byte becomes one character), which matches
urllib.parse.unquote on single-byte sequences.
-/

namespace BC

abbrev Str := List Char

/-- Association-list lookup keyed by strings, first match wins. -/
def lookupStr {β : Type} (k : Str) : List (Str × β) → Option β
  | [] => none
  | (k2, v) :: rest => if k2 = k then some v else lookupStr k rest

/-! Filename sanitizer (sanitize_filename, constants
SANITIZE_PATH_WINDOWS_REGEX and WINDOWS_DRIVE_REGEX). -/

/-- Character class of SANITIZE_PATH_WINDOWS_REGEX. -/
def WINDOWS_BAD_CHARS : List Char := ['<', '>', ':', '"', '/', '|', '?', '*', '\\']

/-- Regex sub of a single-character class: scan the string, replacing every
matching character. -/
def subCharClass (bad : List Char) (repl : Char) : Str → Str
  | [] => []
  | c :: rest => (if c ∈ bad then repl else c) :: subCharClass bad repl rest

/-- Python str.replace for single characters. -/
def pyReplace (old new : Char) : Str → Str
  | [] => []
  | c :: rest => (if c = old then new else c) :: pyReplace old new rest

/-- WINDOWS_DRIVE_REGEX.match: the string starts with letter, colon,
backslash. -/
def windowsDriveMatch : Str → Bool
  | a :: b :: c :: _ => a.isAlpha && (b == ':') && (c == '\\')
  | _ => false

/-- sanitize_filename from the source; the platform test
sys.platform.startswith("win") is the boolean parameter. -/
def sanitize_filename (platformWin : Bool) (path : Str) : Str :=
  if platformWin then
    if windowsDriveMatch path then
      path.take 3 ++ subCharClass WINDOWS_BAD_CHARS '-' (path.drop 3)
    else
      subCharClass WINDOWS_BAD_CHARS '-' path
  else
    pyReplace '/' '-' path

/-! Helper lemmas about the sanitizer. -/

theorem subCharClass_eq_map (bad : List Char) (r : Char) (l : Str) :
    subCharClass bad r l = l.map (fun c => if c ∈ bad then r else c) := by
  induction l with
  | nil => rfl
  | cons c rest ih => simp [subCharClass, ih]

theorem pyReplace_eq_map (old new : Char) (l : Str) :
    pyReplace old new l = l.map (fun c => if c = old then new else c) := by
  induction l with
  | nil => rfl
  | cons c rest ih => simp [pyReplace, ih]

theorem subCharClass_idem (bad : List Char) (r : Char) (hr : r ∉ bad) (l : Str) :
    subCharClass bad r (subCharClass bad r l) = subCharClass bad r l := by
  induction l with
  | nil => rfl
  | cons c rest ih =>
    by_cases hc : c ∈ bad <;> simp [subCharClass, hc, hr, ih]

theorem pyReplace_idem (old new : Char) (h : new ≠ old) (l : Str) :
    pyReplace old new (pyReplace old new l) = pyReplace old new l := by
  induction l with
  | nil => rfl
  | cons c rest ih =>
    by_cases hc : c = old <;> simp [pyReplace, hc, h, ih]

theorem windowsDriveMatch_subCharClass (l : Str) :
    windowsDriveMatch (subCharClass WINDOWS_BAD_CHARS '-' l) = false := by
  match l with
  | [] => rfl
  | [a] => rfl
  | [a, b] => rfl
  | a :: b :: c :: rest =>
    simp only [subCharClass, windowsDriveMatch]
    by_cases hb : b ∈ WINDOWS_BAD_CHARS
    · simp [hb]
    · have hbne : b ≠ ':' := by
        intro h; exact hb (by rw [h]; decide)
      simp [hb, hbne]

theorem sanitize_drive_shape (s : Str) (h : windowsDriveMatch s = true) :
    sanitize_filename true s =
      s.take 3 ++ subCharClass WINDOWS_BAD_CHARS '-' (s.drop 3) := by
  simp [sanitize_filename, h]

theorem sanitize_nodrive_shape (s : Str) (h : windowsDriveMatch s = false) :
    sanitize_filename true s = subCharClass WINDOWS_BAD_CHARS '-' s := by
  simp [sanitize_filename, h]

theorem windowsDriveMatch_length (s : Str) (h : windowsDriveMatch s = true) :
    3 ≤ s.length := by
  match s with
  | [] => simp [windowsDriveMatch] at h
  | [a] => simp [windowsDriveMatch] at h
  | [a, b] => simp [windowsDriveMatch] at h
  | a :: b :: c :: rest => simp only [List.length_cons]; omega

/-! Stdlib helpers used by download_file: urllib.parse.unquote,
re.search with FILENAME_REGEX, str.split, os.path.splitext, os.path.join,
str.format. -/

/-- Value of a single hex digit, as used by percent-decoding. -/
def hexVal (c : Char) : Option Nat :=
  if '0' ≤ c ∧ c ≤ '9' then some (c.toNat - '0'.toNat)
  else if 'a' ≤ c ∧ c ≤ 'f' then some (c.toNat - 'a'.toNat + 10)
  else if 'A' ≤ c ∧ c ≤ 'F' then some (c.toNat - 'A'.toNat + 10)
  else none

/-- urllib.parse.unquote at byte level: each valid %XX sequence becomes the
character with that code; invalid sequences are kept verbatim. -/
def percentDecode : Str → Str
  | [] => []
  | '%' :: a :: b :: rest =>
    match hexVal a, hexVal b with
    | some hi, some lo => Char.ofNat (16 * hi + lo) :: percentDecode rest
    | _, _ => '%' :: percentDecode (a :: b :: rest)
  | c :: rest => c :: percentDecode rest

/-- Boolean test that the first list is a leading segment of the second. -/
def startsWithList : Str → Str → Bool
  | [], _ => true
  | _ :: _, [] => false
  | a :: as, b :: bs => (a == b) && startsWithList as bs

/-- Literal part of FILENAME_REGEX; the two trailing characters are
apostrophes (code 39). -/
def FILENAME_MARKER : Str := "filename*=UTF-8".data ++ [Char.ofNat 39, Char.ofNat 39]

/-- re.search for a pattern of the form literal-marker followed by a
capturing group: the text after the first occurrence of the marker, or none
when the marker does not occur. -/
def searchAfter (marker : Str) : Str → Option Str
  | [] => none
  | c :: rest =>
    if startsWithList marker (c :: rest) then
      some (List.drop marker.length (c :: rest))
    else searchAfter marker rest

/-- Group capture of dot-star: everything up to the end of the line. -/
def takeLine (s : Str) : Str := s.takeWhile (fun c => c != '\n')

/-- Python url.split(sep)[-1]: the text after the last separator. -/
def lastSegment (sep : Char) (s : Str) : Str :=
  (s.reverse.takeWhile (fun c => c != sep)).reverse

/-- Extension part of os.path.splitext: from the last dot of the base name,
ignoring leading dots. -/
def fileExtension (p : Str) : Str :=
  let base := lastSegment '/' p
  let rest := base.dropWhile (fun c => c == '.')
  if rest.contains '.' then
    '.' :: (rest.reverse.takeWhile (fun c => c != '.')).reverse
  else []

/-- os.path.join for two components with separator slash. -/
def pathJoin (a b : Str) : Str :=
  match b with
  | '/' :: _ => b
  | _ =>
    match a with
    | [] => b
    | _ => if a.getLast? = some '/' then a ++ b else a ++ '/' :: b

/-- Values of the track_info dictionary: strings or integers. -/
inductive TVal
  | str (v : Str)
  | int (v : Int)
deriving DecidableEq

/-- Text a template substitution produces for a value. -/
def tvalText : TVal → Str
  | .str v => v
  | .int v => (toString v).data

/-- Per-value sanitation applied before formatting: sanitize string values,
leave the rest unchanged. -/
def sanitizeTVal (platformWin : Bool) : TVal → TVal
  | .str v => .str (sanitize_filename platformWin v)
  | v => v

/-- Worker for Python str.format restricted to plain named fields: the
first argument is none outside a replacement field and carries the reversed
field name while inside one.  Doubled braces are literals; an unmatched
closing brace or a name missing from the mapping is an error (none). -/
def renderFmtAux (vals : List (Str × TVal)) : Str → Option Str → Option Str
  | [], none => some []
  | [], some _ => none
  | c :: rest, some acc =>
    if c = '}' then
      match lookupStr acc.reverse vals with
      | some v => (renderFmtAux vals rest none).map (fun t => tvalText v ++ t)
      | none => none
    else renderFmtAux vals rest (some (c :: acc))
  | '{' :: '{' :: rest, none => (renderFmtAux vals rest none).map (fun t => '{' :: t)
  | '{' :: rest, none => renderFmtAux vals rest (some [])
  | '}' :: '}' :: rest, none => (renderFmtAux vals rest none).map (fun t => '}' :: t)
  | '}' :: _, none => none
  | c :: rest, none => (renderFmtAux vals rest none).map (fun t => c :: t)

/-- Python fmt.format(**vals) for plain named fields. -/
def renderFmt (vals : List (Str × TVal)) (fmt : Str) : Option Str :=
  renderFmtAux vals fmt none

/-! Data model: the filesystem, the CONFIG dictionary, network responses
and the exception classes that drive the except clauses. -/

/-- Filesystem as an association list from paths to file byte sizes; the
most recent write shadows earlier entries. -/
abbrev FS := List (Str × Nat)

/-- os.path.exists plus os.stat st_size. -/
def fsGet (fs : FS) (p : Str) : Option Nat := lookupStr p fs

/-- Writing a file of n bytes at path p. -/
def fsSet (fs : FS) (p : Str) (n : Nat) : FS := (p, n) :: fs

/-- The CONFIG dictionary after argument parsing, immutable for the run. -/
structure DLConfig where
  outputDir : Str
  filenameFormat : Str
  fileFormat : Str
  force : Bool
  dryRun : Bool
  verbose : Nat
  maxUrlAttempts : Nat
  urlRetryWait : ℚ
  postDownloadWait : ℚ
  platformWin : Bool

/-- One streaming GET response: status, the two headers the code reads, and
how many body bytes the stream yields before ending. -/
structure HttpResponse where
  status2xx : Bool
  contentLength : Option Nat
  contentDisposition : Option Str
  bodyBytes : Nat

/-- Result of one requests.get call: a connection-level error (an IOError
subclass) or a response. -/
inductive FetchResult
  | connErr
  | resp (r : HttpResponse)

/-- Exception classes distinguished by the except clauses: IOError and
every other Exception. -/
inductive PyExn
  | ioError
  | otherError
deriving DecidableEq

/-- Messages written through tqdm or print, as structured entries. -/
inductive LogEntry
  | errNoPageData (albumUrl : Str)
  | warnNoDownloads (album albumUrl : Str)
  | warnNoFormat (album albumUrl fmt : Str)
  | warnRetryAlbum (attempt : Nat) (albumUrl : Str)
  | errAlbumException (albumUrl : Str)
  | warnRetryFile (attempt : Nat) (url : Str)
  | errFileException (url : Str)
  | forceOverwrite (path : Str)
  | skippingExisting (path : Str)
  | wrongSize (path : Str) (expected actual : Nat)
  | savingTo (path : Str)
deriving DecidableEq

/-- Return points of one download_file attempt body, tagged by what
happened. -/
inductive FileOutcome
  | skipped (path : Str)
  | dryRunDone (path : Str)
  | downloaded (path : Str) (bytes : Nat)
deriving DecidableEq

/-- State produced by one attempt body: the return value or raised
exception, the filesystem after it, the body bytes consumed from the
stream, and the messages written. -/
structure AttemptResult where
  result : Except PyExn FileOutcome
  fs : FS
  bytesStreamed : Nat
  logs : List LogEntry

/-! download_file (lines 318 to 408 of the source). -/

/-- Destination path computation of download_file: suggested filename from
the content-disposition value, extension, sanitized track info, template
rendering, join with the output directory.  none when the template fails
(KeyError or ValueError from str.format). -/
def destPath (cfg : DLConfig) (url : Str) (trackInfo : List (Str × TVal))
    (cd : Str) : Option Str :=
  let originalFilename :=
    match searchAfter FILENAME_MARKER cd with
    | some g => percentDecode (takeLine g)
    | none => lastSegment '/' url
  let extension := fileExtension originalFilename
  let safeTrackInfo := trackInfo.map (fun kv => (kv.1, sanitizeTVal cfg.platformWin kv.2))
  match renderFmt safeTrackInfo cfg.filenameFormat with
  | some stem => some (pathJoin cfg.outputDir (stem ++ extension))
  | none => none

/-- Streaming phase of the attempt: the saving-to notice, the dry-run
return, then chunked writing and the size comparison that raises IOError
on an incomplete read. -/
def writePhase (cfg : DLConfig) (fs : FS) (r : HttpResponse) (filePath : Str)
    (expectedSize : Nat) (logs0 : List LogEntry) : AttemptResult :=
  let logs1 := logs0 ++ (if cfg.verbose ≥ 2 then [LogEntry.savingTo filePath] else [])
  if cfg.dryRun then ⟨.ok (.dryRunDone filePath), fs, 0, logs1⟩
  else
    let fs2 := fsSet fs filePath r.bodyBytes
    if expectedSize ≠ r.bodyBytes then
      ⟨.error .ioError, fs2, r.bodyBytes, logs1⟩
    else
      ⟨.ok (.downloaded filePath r.bodyBytes), fs2, r.bodyBytes, logs1⟩

/-- Try-block body of one download_file attempt.  Header access raises
KeyError (an Exception, not an IOError) when the header is absent;
raise_for_status and connection failures raise IOError subclasses. -/
def downloadFileBody (cfg : DLConfig) (fs : FS) (fetch : FetchResult)
    (url : Str) (trackInfo : List (Str × TVal)) : AttemptResult :=
  match fetch with
  | .connErr => ⟨.error .ioError, fs, 0, []⟩
  | .resp r =>
    if !r.status2xx then ⟨.error .ioError, fs, 0, []⟩
    else
      match r.contentLength with
      | none => ⟨.error .otherError, fs, 0, []⟩
      | some expectedSize =>
        match r.contentDisposition with
        | none => ⟨.error .otherError, fs, 0, []⟩
        | some cd =>
          match destPath cfg url trackInfo cd with
          | none => ⟨.error .otherError, fs, 0, []⟩
          | some filePath =>
            match fsGet fs filePath with
            | some actualSize =>
              if cfg.force then
                writePhase cfg fs r filePath expectedSize
                  (if cfg.verbose ≥ 1 then [LogEntry.forceOverwrite filePath] else [])
              else if expectedSize = actualSize then
                ⟨.ok (.skipped filePath), fs, 0,
                  if cfg.verbose ≥ 3 then [LogEntry.skippingExisting filePath] else []⟩
              else
                writePhase cfg fs r filePath expectedSize
                  (if cfg.verbose ≥ 2 then [LogEntry.wrongSize filePath expectedSize actualSize] else [])
            | none => writePhase cfg fs r filePath expectedSize []

/-- Overall result of download_file: a normal return from the try block,
or a failure that was caught and logged by print_exception. -/
inductive FileResult
  | finished (o : FileOutcome)
  | loggedFailure (e : PyExn)
deriving DecidableEq

/-- Observable trace of a download_file call: its result, the filesystem
after it, how many attempt bodies ran, the retry sleeps performed in
order, the total body bytes consumed, and the messages written. -/
structure FileTrace where
  result : FileResult
  fs : FS
  attempts : Nat
  sleeps : List ℚ
  bytesStreamed : Nat
  logs : List LogEntry

/-- Recursive retry structure of download_file, from a given attempt
number with the remaining attempt budget as fuel (the code recurses while
attempt is below MAX_URL_ATTEMPTS).  An except clause that did not match
would let the exception escape as an error value; both clauses together
cover every exception. -/
def downloadFileFrom (cfg : DLConfig) (fetches : Nat → FetchResult) (url : Str)
    (trackInfo : List (Str × TVal)) :
    Nat → FS → Nat → Except PyExn FileTrace
  | 0, fs, attempt =>
    let b := downloadFileBody cfg fs (fetches attempt) url trackInfo
    match b.result with
    | .ok o => .ok ⟨.finished o, b.fs, 1, [], b.bytesStreamed, b.logs⟩
    | .error PyExn.otherError =>
      .ok ⟨.loggedFailure .otherError, b.fs, 1, [], b.bytesStreamed,
           b.logs ++ [LogEntry.errFileException url]⟩
    | .error PyExn.ioError =>
      .ok ⟨.loggedFailure .ioError, b.fs, 1, [], b.bytesStreamed,
           b.logs ++ [LogEntry.errFileException url]⟩
  | fuel' + 1, fs, attempt =>
    let b := downloadFileBody cfg fs (fetches attempt) url trackInfo
    match b.result with
    | .ok o => .ok ⟨.finished o, b.fs, 1, [], b.bytesStreamed, b.logs⟩
    | .error PyExn.otherError =>
      .ok ⟨.loggedFailure .otherError, b.fs, 1, [], b.bytesStreamed,
           b.logs ++ [LogEntry.errFileException url]⟩
    | .error PyExn.ioError =>
      match downloadFileFrom cfg fetches url trackInfo fuel' b.fs (attempt + 1) with
      | .ok t => .ok ⟨t.result, t.fs, t.attempts + 1, cfg.urlRetryWait :: t.sleeps,
                      b.bytesStreamed + t.bytesStreamed,
                      b.logs ++ (if cfg.verbose ≥ 2 then [LogEntry.warnRetryFile attempt url] else [])
                             ++ t.logs⟩
      | .error e => .error e

/-- download_file called as the source calls it: attempt number 1, with
MAX_URL_ATTEMPTS bounding the recursion (the code recurses while the
attempt number is below MAX_URL_ATTEMPTS, so the fuel is one less). -/
def download_file (cfg : DLConfig) (fetches : Nat → FetchResult) (url : Str)
    (trackInfo : List (Str × TVal)) (fs : FS) : Except PyExn FileTrace :=
  downloadFileFrom cfg fetches url trackInfo (cfg.maxUrlAttempts - 1) fs 1

/-! download_album (lines 250 to 316 of the source). -/

/-- TRACK_INFO_KEYS from constants.py. -/
def TRACK_INFO_KEYS : List Str := ["item_id".data, "artist".data, "title".data]

/-- The first download_items entry of the parsed page blob: its plain
fields and, when the downloads key is present, the format-to-url mapping
(each downloads entry holds the url field the code reads). -/
structure PageItem where
  fields : List (Str × TVal)
  downloads : Option (List (Str × Str))

/-- What fetching and parsing the album page yields on one attempt:
a connection-level IOError, some other exception (malformed JSON, missing
download_items), a page without the pagedata div, or the parsed item. -/
inductive AlbumPage
  | fetchIoError
  | fetchException
  | noDiv
  | page (item : PageItem)

/-- Return points of download_album, tagged by what happened. -/
inductive AlbumResult
  | noPageData
  | noDownloads
  | formatNotOffered
  | fileDone (r : FileResult)
  | loggedFailure (e : PyExn)
deriving DecidableEq

/-- Observable trace of a download_album call: result, filesystem, number
of album-level attempt bodies, album-level retry sleeps, number of
download_file invocations, tqdm progress advances, post-download waits,
and messages written. -/
structure AlbumTrace where
  result : AlbumResult
  fs : FS
  albumAttempts : Nat
  retrySleeps : List ℚ
  writerCalls : Nat
  tqdmUpdates : Nat
  postWaits : Nat
  logs : List LogEntry

/-- The dict comprehension over TRACK_INFO_KEYS; none is a KeyError. -/
def extractTrackInfo (fields : List (Str × TVal)) : Option (List (Str × TVal)) :=
  TRACK_INFO_KEYS.mapM (fun k => (lookupStr k fields).map (fun v => (k, v)))

/-- Recursive retry structure of download_album.  The resolve function
gives the page-fetch result of each album-level attempt; wfetch gives the
per-attempt response sequence seen by download_file.  The finally clause
advances tqdm and performs the post-download wait only when the attempt
number is 1, after the whole retry chain below it has finished. -/
def downloadAlbumFrom (cfg : DLConfig) (resolve : Nat → AlbumPage)
    (wfetch : Nat → Nat → FetchResult) (albumUrl : Str) :
    Nat → FS → Nat → Except PyExn AlbumTrace
  | fuel, fs, attempt =>
    let fin : AlbumTrace → AlbumTrace := fun t =>
      if attempt = 1 then
        { t with tqdmUpdates := t.tqdmUpdates + 1, postWaits := t.postWaits + 1 }
      else t
    match resolve attempt with
    | .fetchIoError =>
      match fuel with
      | 0 => .ok (fin ⟨.loggedFailure .ioError, fs, 1, [], 0, 0, 0,
                       [LogEntry.errAlbumException albumUrl]⟩)
      | fuel' + 1 =>
        match downloadAlbumFrom cfg resolve wfetch albumUrl fuel' fs (attempt + 1) with
        | .ok t => .ok (fin ⟨t.result, t.fs, t.albumAttempts + 1,
                             cfg.urlRetryWait :: t.retrySleeps, t.writerCalls,
                             t.tqdmUpdates, t.postWaits,
                             (if cfg.verbose ≥ 2 then [LogEntry.warnRetryAlbum attempt albumUrl] else [])
                                ++ t.logs⟩)
        | .error e => .error e
    | .fetchException =>
      .ok (fin ⟨.loggedFailure .otherError, fs, 1, [], 0, 0, 0,
                [LogEntry.errAlbumException albumUrl]⟩)
    | .noDiv =>
      .ok (fin ⟨.noPageData, fs, 1, [], 0, 0, 0, [LogEntry.errNoPageData albumUrl]⟩)
    | .page item =>
      match lookupStr ("title".data) item.fields with
      | none =>
        .ok (fin ⟨.loggedFailure .otherError, fs, 1, [], 0, 0, 0,
                  [LogEntry.errAlbumException albumUrl]⟩)
      | some albumTitle =>
        match item.downloads with
        | none =>
          .ok (fin ⟨.noDownloads, fs, 1, [], 0, 0, 0,
                    [LogEntry.warnNoDownloads (tvalText albumTitle) albumUrl]⟩)
        | some dls =>
          match lookupStr cfg.fileFormat dls with
          | none =>
            .ok (fin ⟨.formatNotOffered, fs, 1, [], 0, 0, 0,
                      [LogEntry.warnNoFormat (tvalText albumTitle) albumUrl cfg.fileFormat]⟩)
          | some downloadUrl =>
            match extractTrackInfo item.fields with
            | none =>
              .ok (fin ⟨.loggedFailure .otherError, fs, 1, [], 0, 0, 0,
                        [LogEntry.errAlbumException albumUrl]⟩)
            | some trackInfo =>
              match download_file cfg (wfetch attempt) downloadUrl trackInfo fs with
              | .ok ft =>
                .ok (fin ⟨.fileDone ft.result, ft.fs, 1, [], 1, 0, 0, ft.logs⟩)
              | .error PyExn.otherError =>
                .ok (fin ⟨.loggedFailure .otherError, fs, 1, [], 1, 0, 0,
                          [LogEntry.errAlbumException albumUrl]⟩)
              | .error PyExn.ioError =>
                match fuel with
                | 0 => .ok (fin ⟨.loggedFailure .ioError, fs, 1, [], 1, 0, 0,
                                 [LogEntry.errAlbumException albumUrl]⟩)
                | fuel' + 1 =>
                  match downloadAlbumFrom cfg resolve wfetch albumUrl fuel' fs (attempt + 1) with
                  | .ok t => .ok (fin ⟨t.result, t.fs, t.albumAttempts + 1,
                                       cfg.urlRetryWait :: t.retrySleeps, t.writerCalls + 1,
                                       t.tqdmUpdates, t.postWaits,
                                       (if cfg.verbose ≥ 2 then [LogEntry.warnRetryAlbum attempt albumUrl] else [])
                                          ++ t.logs⟩)
                  | .error e => .error e

/-- download_album called as the source calls it: attempt number 1. -/
def download_album (cfg : DLConfig) (resolve : Nat → AlbumPage)
    (wfetch : Nat → Nat → FetchResult) (albumUrl : Str) (fs : FS) :
    Except PyExn AlbumTrace :=
  downloadAlbumFrom cfg resolve wfetch albumUrl (cfg.maxUrlAttempts - 1) fs 1

/-! Orchestration over the album list and the tail of main
(lines 157 to 187 of the source). -/

/-- Environment of one album: its url, the per-attempt page-fetch results,
and the per-attempt response sequences seen by its download_file call. -/
structure AlbumEnv where
  url : Str
  resolve : Nat → AlbumPage
  wfetch : Nat → Nat → FetchResult

/-- Sequential processing of the album links (the parallel pool applies
download_album to every link exactly once in the same way; only the
interleaving differs, which this model does not capture). -/
def runAlbums (cfg : DLConfig) : List AlbumEnv → FS → Except PyExn (List AlbumTrace × FS)
  | [], fs => .ok ([], fs)
  | a :: rest, fs =>
    match download_album cfg a.resolve a.wfetch a.url fs with
    | .error e => .error e
    | .ok t =>
      match runAlbums cfg rest t.fs with
      | .error e => .error e
      | .ok (ts, fs2) => .ok (t :: ts, fs2)

/-- What the process does after the album links have been retrieved. -/
inductive MainOutcome
  | exitCode (n : Nat)
  | doneNormally (traces : List AlbumTrace)
  | crashed (e : PyExn)

/-- Tail of main after get_download_links_for_user returns the links:
when VERBOSE is truthy the code prints the found-links line twice, prints
the no-album-links warning, and calls sys.exit(2) unconditionally;
otherwise it runs the downloads and prints Done. -/
def mainAfterLinks (cfg : DLConfig) (links : List AlbumEnv) (fs : FS) : MainOutcome :=
  if cfg.verbose ≠ 0 then MainOutcome.exitCode 2
  else
    match runAlbums cfg links fs with
    | .ok (ts, _) => MainOutcome.doneNormally ts
    | .error e => MainOutcome.crashed e

/-! Theorems.  First the sanitizer claims. -/

/-- Replacement rule of the restrictive platform, stated character-wise. -/
def winReplChar (c : Char) : Char := if c ∈ WINDOWS_BAD_CHARS then '-' else c

/-- Replacement rule of the permissive platform, stated character-wise. -/
def permReplChar (c : Char) : Char := if c = '/' then '-' else c

theorem subCharClass_getElem (bad : List Char) (r : Char) (l : Str) (i : Nat) :
    (subCharClass bad r l)[i]? = (l[i]?).map (fun c => if c ∈ bad then r else c) := by
  rw [subCharClass_eq_map, List.getElem?_map]

theorem take3_of_drive (s : Str) (h : windowsDriveMatch s = true) (X : Str) :
    (s.take 3 ++ X).take 3 = s.take 3 := by
  have hlen : (s.take 3).length = 3 := by
    rw [List.length_take]
    have := windowsDriveMatch_length s h
    omega
  rw [List.take_append_eq_append_take]
  simp [hlen, List.take_take]

theorem drop3_of_drive (s : Str) (h : windowsDriveMatch s = true) (X : Str) :
    (s.take 3 ++ X).drop 3 = X := by
  have hlen : (s.take 3).length = 3 := by
    rw [List.length_take]
    have := windowsDriveMatch_length s h
    omega
  rw [List.drop_append_eq_append_drop]
  simp [hlen]

theorem windowsDriveMatch_take_append (s : Str) (h : windowsDriveMatch s = true)
    (X : Str) : windowsDriveMatch (s.take 3 ++ X) = true := by
  match s, h with
  | a :: b :: c :: rest, h =>
    simpa [windowsDriveMatch] using h

/-- C8: the sanitizer is total (it is a function on all character lists);
on the restrictive platform it keeps a leading drive prefix of the form
letter colon backslash unmodified and replaces every bad character in the
remainder with a dash, and without such a prefix replaces bad characters
everywhere; on the permissive platform it replaces only slashes. -/
theorem sanitize_platform_rules (s : Str) :
    (windowsDriveMatch s = true →
       (sanitize_filename true s).take 3 = s.take 3 ∧
       ∀ i : Nat, 3 ≤ i → (sanitize_filename true s)[i]? = (s[i]?).map winReplChar) ∧
    (windowsDriveMatch s = false →
       ∀ i : Nat, (sanitize_filename true s)[i]? = (s[i]?).map winReplChar) ∧
    (∀ i : Nat, (sanitize_filename false s)[i]? = (s[i]?).map permReplChar) := by
  refine ⟨fun h => ⟨?_, fun i hi => ?_⟩, fun h i => ?_, fun i => ?_⟩
  · rw [sanitize_drive_shape s h, take3_of_drive s h]
  · rw [sanitize_drive_shape s h]
    have hlen : (s.take 3).length = 3 := by
      rw [List.length_take]
      have := windowsDriveMatch_length s h
      omega
    rw [List.getElem?_append_right (by omega), subCharClass_getElem]
    rw [hlen, List.getElem?_drop]
    have : 3 + (i - 3) = i := by omega
    rw [this]
    rfl
  · rw [sanitize_nodrive_shape s h, subCharClass_getElem]
    rfl
  · show (pyReplace '/' '-' s)[i]? = (s[i]?).map permReplChar
    rw [pyReplace_eq_map, List.getElem?_map]
    rfl

/-- Witness for C8, at a drive-prefixed input, a plain restrictive input
and a permissive input. -/
theorem sanitize_platform_rules_witness :
    ((sanitize_filename true "C:\\some/bad:chars".data).take 3 =
       ("C:\\some/bad:chars".data).take 3) ∧
    ((sanitize_filename true "C:\\some/bad:chars".data)[7]? =
       (("C:\\some/bad:chars".data)[7]?).map winReplChar) ∧
    ((sanitize_filename true "a/b:c".data)[1]? =
       (("a/b:c".data)[1]?).map winReplChar) ∧
    ((sanitize_filename false "a/b:c".data)[1]? =
       (("a/b:c".data)[1]?).map permReplChar) := by
  refine ⟨?_, ?_, ?_, ?_⟩
  · exact ((sanitize_platform_rules _).1 (by decide)).1
  · exact ((sanitize_platform_rules _).1 (by decide)).2 7 (by decide)
  · exact ((sanitize_platform_rules _).2.1 (by decide)) 1
  · exact (sanitize_platform_rules _).2.2 1

theorem windowsDriveMatch_sub_take (s : Str) (h : windowsDriveMatch s = true) :
    windowsDriveMatch
      (s.take 3 ++ subCharClass WINDOWS_BAD_CHARS '-' (s.drop 3)) = true :=
  windowsDriveMatch_take_append s h _

/-- C10: the sanitizer is idempotent on both platforms: a second
application never changes the result, because the replacement character is
itself safe and a preserved drive prefix is preserved again. -/
theorem sanitize_idempotent (platformWin : Bool) (s : Str) :
    sanitize_filename platformWin (sanitize_filename platformWin s) =
      sanitize_filename platformWin s := by
  cases platformWin with
  | false =>
    show pyReplace '/' '-' (pyReplace '/' '-' s) = pyReplace '/' '-' s
    exact pyReplace_idem '/' '-' (by decide) s
  | true =>
    cases hdm : windowsDriveMatch s with
    | true =>
      rw [sanitize_drive_shape s hdm]
      rw [sanitize_drive_shape _ (windowsDriveMatch_sub_take s hdm)]
      rw [take3_of_drive s hdm, drop3_of_drive s hdm]
      rw [subCharClass_idem _ _ (by decide)]
    | false =>
      rw [sanitize_nodrive_shape s hdm]
      rw [sanitize_nodrive_shape _ (windowsDriveMatch_subCharClass s)]
      rw [subCharClass_idem _ _ (by decide)]

/-! Retry wrapper claims. -/

theorem downloadFileBody_connErr (cfg : DLConfig) (fs : FS) (url : Str)
    (ti : List (Str × TVal)) :
    downloadFileBody cfg fs .connErr url ti = ⟨.error .ioError, fs, 0, []⟩ := rfl

theorem downloadFileFrom_succ_after (cfg : DLConfig) (fetches : Nat → FetchResult)
    (url : Str) (ti : List (Str × TVal)) :
    ∀ d fuel fs attempt o, d ≤ fuel →
      (∀ k, attempt ≤ k → k < attempt + d → fetches k = .connErr) →
      (downloadFileBody cfg fs (fetches (attempt + d)) url ti).result = .ok o →
      ∃ t, downloadFileFrom cfg fetches url ti fuel fs attempt = .ok t ∧
        t.result = .finished o ∧ t.attempts = d + 1 ∧
        t.sleeps = List.replicate d cfg.urlRetryWait := by
  intro d
  induction d with
  | zero =>
    intro fuel fs attempt o _ _ hok
    rw [Nat.add_zero] at hok
    cases fuel with
    | zero =>
      simp only [downloadFileFrom, hok]
      exact ⟨_, rfl, rfl, rfl, rfl⟩
    | succ fuel' =>
      simp only [downloadFileFrom, hok]
      exact ⟨_, rfl, rfl, rfl, rfl⟩
  | succ d ih =>
    intro fuel fs attempt o hle hfail hok
    cases fuel with
    | zero => omega
    | succ fuel' =>
      have hcur : fetches attempt = .connErr := hfail attempt (le_refl _) (by omega)
      have hb : downloadFileBody cfg fs (fetches attempt) url ti =
          ⟨.error .ioError, fs, 0, []⟩ := by
        rw [hcur]; exact downloadFileBody_connErr cfg fs url ti
      have hok2 : (downloadFileBody cfg fs (fetches (attempt + 1 + d)) url ti).result = .ok o := by
        have harith : attempt + 1 + d = attempt + (d + 1) := by omega
        rw [harith]; exact hok
      obtain ⟨t, ht, hres, hatt, hsl⟩ :=
        ih fuel' fs (attempt + 1) o (by omega)
          (fun k h1 h2 => hfail k (by omega) (by omega)) hok2
      simp only [downloadFileFrom, hb, ht]
      refine ⟨_, rfl, hres, ?_, ?_⟩
      · simp [hatt]
      · simp [hsl, List.replicate_succ]

theorem downloadFileFrom_exhaust (cfg : DLConfig) (fetches : Nat → FetchResult)
    (url : Str) (ti : List (Str × TVal))
    (hfail : ∀ k, fetches k = FetchResult.connErr) :
    ∀ fuel fs attempt,
      ∃ t, downloadFileFrom cfg fetches url ti fuel fs attempt = .ok t ∧
        t.result = .loggedFailure .ioError ∧ t.attempts = fuel + 1 ∧
        t.sleeps = List.replicate fuel cfg.urlRetryWait ∧
        t.fs = fs ∧ t.bytesStreamed = 0 := by
  intro fuel
  induction fuel with
  | zero =>
    intro fs attempt
    have hb : downloadFileBody cfg fs (fetches attempt) url ti =
        ⟨.error .ioError, fs, 0, []⟩ := by
      rw [hfail attempt]; exact downloadFileBody_connErr cfg fs url ti
    simp only [downloadFileFrom, hb]
    exact ⟨_, rfl, rfl, rfl, rfl, rfl, rfl⟩
  | succ fuel' ih =>
    intro fs attempt
    have hb : downloadFileBody cfg fs (fetches attempt) url ti =
        ⟨.error .ioError, fs, 0, []⟩ := by
      rw [hfail attempt]; exact downloadFileBody_connErr cfg fs url ti
    obtain ⟨t, ht, hres, hatt, hsl, hfs, hby⟩ := ih fs (attempt + 1)
    simp only [downloadFileFrom, hb, ht]
    refine ⟨_, rfl, hres, ?_, ?_, hfs, ?_⟩
    · simp [hatt]
    · simp [hsl, List.replicate_succ]
    · simp [hby]

/-- C2: for max attempts equal to N at least 1, the retry logic of
download_file run against responses that raise a transient IOError on the
first N-1 attempts and succeed on the Nth returns the success outcome
after exactly N attempt bodies; run against responses that always raise a
transient IOError it gives up after exactly N attempt bodies, sleeping the
fixed URL_RETRY_WAIT interval exactly N-1 times with no growth. -/
theorem retry_attempt_counts (cfg : DLConfig) (N : Nat) (url : Str)
    (ti : List (Str × TVal)) (fs : FS)
    (fsucc ffail : Nat → FetchResult) (o : FileOutcome)
    (hN : 1 ≤ N) (hmax : cfg.maxUrlAttempts = N)
    (hfail1 : ∀ k, 1 ≤ k → k < N → fsucc k = FetchResult.connErr)
    (hNth : (downloadFileBody cfg fs (fsucc N) url ti).result = .ok o)
    (hfail2 : ∀ k, ffail k = FetchResult.connErr) :
    (∃ t, download_file cfg fsucc url ti fs = .ok t ∧
       t.result = .finished o ∧ t.attempts = N ∧
       t.sleeps = List.replicate (N - 1) cfg.urlRetryWait) ∧
    (∃ t, download_file cfg ffail url ti fs = .ok t ∧
       t.result = .loggedFailure .ioError ∧ t.attempts = N ∧
       t.sleeps = List.replicate (N - 1) cfg.urlRetryWait ∧ t.fs = fs) := by
  constructor
  · have hok : (downloadFileBody cfg fs (fsucc (1 + (N - 1))) url ti).result = .ok o := by
      have : 1 + (N - 1) = N := by omega
      rw [this]; exact hNth
    obtain ⟨t, ht, hres, hatt, hsl⟩ :=
      downloadFileFrom_succ_after cfg fsucc url ti (N - 1) (N - 1) fs 1 o
        (le_refl _) (fun k h1 h2 => hfail1 k h1 (by omega)) hok
    refine ⟨t, ?_, hres, by omega, hsl⟩
    rw [download_file, hmax]; exact ht
  · obtain ⟨t, ht, hres, hatt, hsl, hfs, _⟩ :=
      downloadFileFrom_exhaust cfg ffail url ti hfail2 (N - 1) fs 1
    refine ⟨t, ?_, hres, by omega, hsl, hfs⟩
    rw [download_file, hmax]; exact ht

/-- Configuration used by the concrete witnesses: output directory /out,
the default filename format, format mp3-320, no force, no dry run, quiet,
3 attempts, 5 second retry wait. -/
def cfgW : DLConfig :=
  ⟨"/out".data, "{artist}/{artist} - {title}".data, "mp3-320".data,
   false, false, 0, 3, 5, 1, false⟩

/-- Content-disposition value used by the concrete witnesses. -/
def cdW : Str :=
  "attachment; filename".data ++ [Char.ofNat 42, '=']
    ++ "UTF-8".data ++ [Char.ofNat 39, Char.ofNat 39] ++ "Alb.zip".data

/-- Response used by the concrete witnesses: 200, content length 1000, a
matching content-disposition, and a full 1000-byte body. -/
def respW : HttpResponse := ⟨true, some 1000, some cdW, 1000⟩

/-- Track info used by the concrete witnesses. -/
def tiW : List (Str × TVal) :=
  [("item_id".data, TVal.int 7), ("artist".data, TVal.str "A".data),
   ("title".data, TVal.str "T".data)]

/-- Destination path the witness configuration renders. -/
def pathW : Str := "/out/A/A - T.zip".data

/-- Witness for C2 at N equal 3: two transient failures then success gives
3 attempts; three transient failures gives exhaustion with two sleeps. -/
theorem retry_attempt_counts_witness :
    (∃ t, download_file cfgW (fun k => if k < 3 then .connErr else .resp respW)
        "dl/u.mp3".data tiW [] = .ok t ∧
       t.result = .finished (.downloaded pathW 1000) ∧ t.attempts = 3 ∧
       t.sleeps = List.replicate 2 cfgW.urlRetryWait) ∧
    (∃ t, download_file cfgW (fun _ => .connErr) "dl/u.mp3".data tiW [] = .ok t ∧
       t.result = .loggedFailure .ioError ∧ t.attempts = 3 ∧
       t.sleeps = List.replicate 2 cfgW.urlRetryWait ∧ t.fs = []) := by
  exact retry_attempt_counts cfgW 3 "dl/u.mp3".data tiW []
    (fun k => if k < 3 then .connErr else .resp respW) (fun _ => .connErr)
    (.downloaded pathW 1000) (by decide) rfl
    (by intro k h1 h2; interval_cases k <;> rfl)
    (by rfl)
    (fun _ => rfl)

/-! Integrity-checked writer claims. -/

theorem fsGet_fsSet_same (fs : FS) (p : Str) (n : Nat) :
    fsGet (fsSet fs p n) p = some n := by
  simp [fsGet, fsSet, lookupStr]

theorem writePhase_ne_skipped (cfg : DLConfig) (fs : FS) (r : HttpResponse)
    (path : Str) (exp : Nat) (logs0 : List LogEntry) (p : Str) :
    (writePhase cfg fs r path exp logs0).result ≠ .ok (.skipped p) := by
  simp only [writePhase]
  split
  · simp
  · split <;> simp

/-- C3: with force off, the single-attempt writer body returns Skipped
with zero body bytes streamed exactly when a file at the rendered path
already has the declared length (length equality is the whole check); with
force on it always re-streams the body regardless of the existing file;
hence a second run over an unchanged remote is Skipped with zero bytes
streamed. -/
theorem writer_skip_iff_complete (cfg : DLConfig) (fs : FS) (r : HttpResponse)
    (url : Str) (ti : List (Str × TVal)) (cd : Str) (exp : Nat) (path : Str)
    (hst : r.status2xx = true) (hlen : r.contentLength = some exp)
    (hcd : r.contentDisposition = some cd)
    (hpath : destPath cfg url ti cd = some path) :
    (cfg.force = false →
       (((downloadFileBody cfg fs (.resp r) url ti).result =
            Except.ok (FileOutcome.skipped path) ∧
         (downloadFileBody cfg fs (.resp r) url ti).bytesStreamed = 0) ↔
        fsGet fs path = some exp)) ∧
    (cfg.force = true → cfg.dryRun = false →
       (downloadFileBody cfg fs (.resp r) url ti).fs = fsSet fs path r.bodyBytes ∧
       (downloadFileBody cfg fs (.resp r) url ti).bytesStreamed = r.bodyBytes ∧
       (downloadFileBody cfg fs (.resp r) url ti).result =
         (if exp = r.bodyBytes then Except.ok (FileOutcome.downloaded path r.bodyBytes)
          else Except.error PyExn.ioError)) ∧
    (cfg.force = false → cfg.dryRun = false → r.bodyBytes = exp →
       (downloadFileBody cfg
           ((downloadFileBody cfg fs (.resp r) url ti).fs) (.resp r) url ti).result =
         Except.ok (FileOutcome.skipped path) ∧
       (downloadFileBody cfg
           ((downloadFileBody cfg fs (.resp r) url ti).fs) (.resp r) url ti).bytesStreamed
         = 0) := by
  have hbody : ∀ gs : FS, downloadFileBody cfg gs (.resp r) url ti =
      (match fsGet gs path with
       | some actualSize =>
         if cfg.force then
           writePhase cfg gs r path exp
             (if cfg.verbose ≥ 1 then [LogEntry.forceOverwrite path] else [])
         else if exp = actualSize then
           ⟨.ok (.skipped path), gs, 0,
             if cfg.verbose ≥ 3 then [LogEntry.skippingExisting path] else []⟩
         else
           writePhase cfg gs r path exp
             (if cfg.verbose ≥ 2 then [LogEntry.wrongSize path exp actualSize] else [])
       | none => writePhase cfg gs r path exp []) := by
    intro gs
    simp only [downloadFileBody, hst, hlen, hcd, hpath, Bool.not_true, Bool.false_eq_true,
      if_false]
  refine ⟨fun hforce => ?_, fun hforce hdry => ?_, fun hforce hdry hfull => ?_⟩
  · rw [hbody fs]
    rcases hfsq : fsGet fs path with _ | actual
    · simp only [hfsq]
      constructor
      · intro ⟨hr, _⟩
        exact absurd hr (writePhase_ne_skipped cfg fs r path exp [] path)
      · intro h
        exact Option.noConfusion h
    · simp only [hfsq, hforce, Bool.false_eq_true, if_false]
      by_cases heq : exp = actual
      · subst heq
        simp
      · simp only [heq, if_false]
        constructor
        · intro ⟨hr, _⟩
          exact absurd hr (writePhase_ne_skipped cfg fs r path exp _ path)
        · intro h
          exact absurd (Option.some.inj h).symm heq
  · rw [hbody fs]
    rcases hfsq : fsGet fs path with _ | actual <;>
      simp only [hfsq, hforce, if_true, writePhase, hdry, Bool.false_eq_true, if_false] <;>
      by_cases heq : exp = r.bodyBytes <;>
      simp [heq]
  · have h2 : ∀ gs, fsGet gs path = some exp →
        (downloadFileBody cfg gs (.resp r) url ti).result =
          Except.ok (FileOutcome.skipped path) ∧
        (downloadFileBody cfg gs (.resp r) url ti).bytesStreamed = 0 := by
      intro gs hg
      rw [hbody gs]
      simp [hg, hforce]
    apply h2
    rw [hbody fs]
    rcases hfsq : fsGet fs path with _ | actual
    · simp only [hfsq]
      simp [writePhase, hdry, hfull, fsGet_fsSet_same]
    · simp only [hfsq, hforce, Bool.false_eq_true, if_false]
      by_cases heq : exp = actual
      · simp only [heq, if_true]
        simpa [heq] using hfsq
      · simp only [heq, if_false]
        simp [writePhase, hdry, hfull, fsGet_fsSet_same]

/-- Force variant of the witness configuration. -/
def cfgF : DLConfig := { cfgW with force := true }

/-- Witness for C3: a complete 1000-byte file is skipped with zero bytes
streamed; with force set the same file is re-downloaded; a fresh download
followed by a second run is skipped. -/
theorem writer_skip_iff_complete_witness :
    ((downloadFileBody cfgW [(pathW, 1000)] (.resp respW) "dl/u.mp3".data tiW).result =
        Except.ok (FileOutcome.skipped pathW) ∧
     (downloadFileBody cfgW [(pathW, 1000)] (.resp respW) "dl/u.mp3".data tiW).bytesStreamed
        = 0) ∧
    ((downloadFileBody cfgF [(pathW, 1000)] (.resp respW) "dl/u.mp3".data tiW).result =
       (if 1000 = respW.bodyBytes then Except.ok (FileOutcome.downloaded pathW respW.bodyBytes)
        else Except.error PyExn.ioError)) ∧
    ((downloadFileBody cfgW ((downloadFileBody cfgW [] (.resp respW) "dl/u.mp3".data tiW).fs)
        (.resp respW) "dl/u.mp3".data tiW).result =
       Except.ok (FileOutcome.skipped pathW)) := by
  refine ⟨?_, ?_, ?_⟩
  · exact ((writer_skip_iff_complete cfgW [(pathW, 1000)] respW "dl/u.mp3".data tiW cdW
      1000 pathW rfl rfl rfl rfl).1 rfl).mpr rfl
  · exact ((writer_skip_iff_complete cfgF [(pathW, 1000)] respW "dl/u.mp3".data tiW cdW
      1000 pathW rfl rfl rfl rfl).2.1 rfl rfl).2.2
  · exact ((writer_skip_iff_complete cfgW [] respW "dl/u.mp3".data tiW cdW
      1000 pathW rfl rfl rfl rfl).2.2 rfl rfl rfl).1

/-! Incomplete-read claim. -/

theorem downloadFileFrom_isOk (cfg : DLConfig) (fetches : Nat → FetchResult)
    (url : Str) (ti : List (Str × TVal)) :
    ∀ fuel fs attempt, ∃ t,
      downloadFileFrom cfg fetches url ti fuel fs attempt = .ok t ∧ 1 ≤ t.attempts := by
  intro fuel
  induction fuel with
  | zero =>
    intro fs attempt
    rcases hres : (downloadFileBody cfg fs (fetches attempt) url ti).result with e | o
    · cases e <;> (simp only [downloadFileFrom, hres]; exact ⟨_, rfl, le_refl 1⟩)
    · simp only [downloadFileFrom, hres]
      exact ⟨_, rfl, le_refl 1⟩
  | succ fuel' ih =>
    intro fs attempt
    rcases hres : (downloadFileBody cfg fs (fetches attempt) url ti).result with e | o
    · cases e with
      | ioError =>
        obtain ⟨t, ht, hat⟩ :=
          ih (downloadFileBody cfg fs (fetches attempt) url ti).fs (attempt + 1)
        simp only [downloadFileFrom, hres, ht]
        exact ⟨_, rfl, by simp⟩
      | otherError =>
        simp only [downloadFileFrom, hres]
        exact ⟨_, rfl, le_refl 1⟩
    · simp only [downloadFileFrom, hres]
      exact ⟨_, rfl, le_refl 1⟩

/-- C4: when the stream ends with fewer bytes than declared the attempt
raises the transient IOError (eligible for retry by the wrapper) and the
partially written file stays on disk with the streamed byte count; when
the counts agree the attempt returns the downloaded outcome with that path
and byte count; and with remaining attempt budget the wrapper runs a
further attempt after an incomplete read. -/
theorem incomplete_read_transient (cfg : DLConfig) (fs : FS) (r : HttpResponse)
    (url : Str) (ti : List (Str × TVal)) (cd : Str) (exp : Nat) (path : Str)
    (hst : r.status2xx = true) (hlen : r.contentLength = some exp)
    (hcd : r.contentDisposition = some cd)
    (hpath : destPath cfg url ti cd = some path)
    (hdry : cfg.dryRun = false) (hnew : fsGet fs path = none) :
    (r.bodyBytes ≠ exp →
       (downloadFileBody cfg fs (.resp r) url ti).result = Except.error PyExn.ioError ∧
       (downloadFileBody cfg fs (.resp r) url ti).fs = fsSet fs path r.bodyBytes ∧
       (downloadFileBody cfg fs (.resp r) url ti).bytesStreamed = r.bodyBytes) ∧
    (r.bodyBytes = exp →
       (downloadFileBody cfg fs (.resp r) url ti).result =
         Except.ok (FileOutcome.downloaded path exp) ∧
       (downloadFileBody cfg fs (.resp r) url ti).fs = fsSet fs path exp ∧
       (downloadFileBody cfg fs (.resp r) url ti).bytesStreamed = exp) ∧
    (∀ fetches fuel, fetches 1 = FetchResult.resp r → r.bodyBytes ≠ exp →
       ∃ t, downloadFileFrom cfg fetches url ti (fuel + 1) fs 1 = .ok t ∧
         2 ≤ t.attempts ∧ 1 ≤ t.sleeps.length) := by
  have hbody : downloadFileBody cfg fs (.resp r) url ti = writePhase cfg fs r path exp [] := by
    simp only [downloadFileBody, hst, hlen, hcd, hpath, hnew, Bool.not_true,
      Bool.false_eq_true, if_false]
  refine ⟨fun hneq => ?_, fun heqb => ?_, fun fetches fuel hf1 hneq => ?_⟩
  · rw [hbody]
    simp [writePhase, hdry, Ne.symm hneq]
  · rw [hbody]
    simp [writePhase, hdry, heqb]
  · have hio : (downloadFileBody cfg fs (fetches 1) url ti).result =
        Except.error PyExn.ioError := by
      rw [hf1, hbody]
      simp [writePhase, hdry, Ne.symm hneq]
    obtain ⟨t, ht, hat⟩ :=
      downloadFileFrom_isOk cfg fetches url ti fuel
        (downloadFileBody cfg fs (fetches 1) url ti).fs 2
    simp only [downloadFileFrom, hio, ht]
    exact ⟨_, rfl, by simp; omega, by simp⟩

/-- Half-body variant of the witness response: 500 of 1000 bytes. -/
def respHalfW : HttpResponse := ⟨true, some 1000, some cdW, 500⟩

/-- Witness for C4: a 500-of-1000 stream raises the transient incomplete
read and leaves the 500-byte file; a 1000-of-1000 stream succeeds; with
budget left the wrapper retries the incomplete read. -/
theorem incomplete_read_transient_witness :
    ((downloadFileBody cfgW [] (.resp respHalfW) "dl/u.mp3".data tiW).result =
        Except.error PyExn.ioError ∧
     (downloadFileBody cfgW [] (.resp respHalfW) "dl/u.mp3".data tiW).fs =
        fsSet [] pathW 500) ∧
    ((downloadFileBody cfgW [] (.resp respW) "dl/u.mp3".data tiW).result =
        Except.ok (FileOutcome.downloaded pathW 1000)) ∧
    (∃ t, downloadFileFrom cfgW (fun _ => .resp respHalfW) "dl/u.mp3".data tiW 2 [] 1 =
        .ok t ∧ 2 ≤ t.attempts ∧ 1 ≤ t.sleeps.length) := by
  have h := incomplete_read_transient cfgW [] respHalfW "dl/u.mp3".data tiW cdW
    1000 pathW rfl rfl rfl rfl rfl rfl
  have h2 := incomplete_read_transient cfgW [] respW "dl/u.mp3".data tiW cdW
    1000 pathW rfl rfl rfl rfl rfl rfl
  refine ⟨⟨(h.1 (by decide)).1, (h.1 (by decide)).2.1⟩, (h2.2.1 rfl).1, ?_⟩
  exact h.2.2 (fun _ => .resp respHalfW) 1 rfl (by decide)

/-! Album resolver and orchestrator claims. -/

/-- Number of album-level attempt bodies the retry chain runs, determined
by the page-fetch outcomes alone. -/
def albumAttemptsSpec (resolve : Nat → AlbumPage) : Nat → Nat → Nat
  | 0, _ => 1
  | fuel' + 1, attempt =>
    match resolve attempt with
    | .fetchIoError => albumAttemptsSpec resolve fuel' (attempt + 1) + 1
    | _ => 1

theorem download_file_eq_ok (cfg : DLConfig) (fetches : Nat → FetchResult)
    (url : Str) (ti : List (Str × TVal)) (fs : FS) :
    ∃ t, download_file cfg fetches url ti fs = .ok t := by
  obtain ⟨t, ht, _⟩ :=
    downloadFileFrom_isOk cfg fetches url ti (cfg.maxUrlAttempts - 1) fs 1
  exact ⟨t, by rw [download_file]; exact ht⟩

theorem downloadAlbumFrom_spec (cfg : DLConfig) (resolve : Nat → AlbumPage)
    (wfetch : Nat → Nat → FetchResult) (albumUrl : Str) :
    ∀ fuel fs attempt, 1 ≤ attempt →
      ∃ t, downloadAlbumFrom cfg resolve wfetch albumUrl fuel fs attempt = .ok t ∧
        t.albumAttempts = albumAttemptsSpec resolve fuel attempt ∧
        t.tqdmUpdates = (if attempt = 1 then 1 else 0) ∧
        t.postWaits = (if attempt = 1 then 1 else 0) := by
  intro fuel
  induction fuel with
  | zero =>
    intro fs attempt hatt
    simp only [downloadAlbumFrom, albumAttemptsSpec]
    rcases hr : resolve attempt with _ | _ | _ | item <;> simp only [hr]
    case fetchIoError =>
      by_cases ha : attempt = 1 <;> simp [ha]
    case fetchException =>
      by_cases ha : attempt = 1 <;> simp [ha]
    case noDiv =>
      by_cases ha : attempt = 1 <;> simp [ha]
    case page =>
      rcases htl : lookupStr ("title".data) item.fields with _ | title <;> simp only [htl]
      · by_cases ha : attempt = 1 <;> simp [ha]
      · rcases hdl : item.downloads with _ | dls <;> simp only [hdl]
        · by_cases ha : attempt = 1 <;> simp [ha]
        · rcases hfm : lookupStr cfg.fileFormat dls with _ | durl <;> simp only [hfm]
          · by_cases ha : attempt = 1 <;> simp [ha]
          · rcases hti : extractTrackInfo item.fields with _ | ti <;> simp only [hti]
            · by_cases ha : attempt = 1 <;> simp [ha]
            · obtain ⟨ft, hft⟩ := download_file_eq_ok cfg (wfetch attempt) durl ti fs
              simp only [hft]
              by_cases ha : attempt = 1 <;> simp [ha]
  | succ fuel' ih =>
    intro fs attempt hatt
    obtain ⟨t0, ht0, hsp0, hu0, hw0⟩ := ih fs (attempt + 1) (by omega)
    have hne : ¬(attempt + 1 = 1) := by omega
    rw [if_neg hne] at hu0 hw0
    simp only [downloadAlbumFrom, albumAttemptsSpec]
    rcases hr : resolve attempt with _ | _ | _ | item <;> simp only [hr]
    case fetchIoError =>
      simp only [ht0]
      by_cases ha : attempt = 1 <;> simp [ha, hsp0, hu0, hw0]
    case fetchException =>
      by_cases ha : attempt = 1 <;> simp [ha]
    case noDiv =>
      by_cases ha : attempt = 1 <;> simp [ha]
    case page =>
      rcases htl : lookupStr ("title".data) item.fields with _ | title <;> simp only [htl]
      · by_cases ha : attempt = 1 <;> simp [ha]
      · rcases hdl : item.downloads with _ | dls <;> simp only [hdl]
        · by_cases ha : attempt = 1 <;> simp [ha]
        · rcases hfm : lookupStr cfg.fileFormat dls with _ | durl <;> simp only [hfm]
          · by_cases ha : attempt = 1 <;> simp [ha]
          · rcases hti : extractTrackInfo item.fields with _ | ti <;> simp only [hti]
            · by_cases ha : attempt = 1 <;> simp [ha]
            · obtain ⟨ft, hft⟩ := download_file_eq_ok cfg (wfetch attempt) durl ti fs
              simp only [hft]
              by_cases ha : attempt = 1 <;> simp [ha]

/-- C7: when the requested format key is absent from the available
downloads mapping, download_album logs the warning naming the album and
the format, returns after a single attempt, opens no file-download stream
(zero writer calls), performs no retry sleep, and leaves the filesystem
unchanged. -/
theorem format_not_offered_no_retry (cfg : DLConfig) (resolve : Nat → AlbumPage)
    (wfetch : Nat → Nat → FetchResult) (albumUrl : Str) (fs : FS)
    (item : PageItem) (title : TVal) (dls : List (Str × Str))
    (h1 : resolve 1 = AlbumPage.page item)
    (h2 : lookupStr ("title".data) item.fields = some title)
    (h3 : item.downloads = some dls)
    (h4 : lookupStr cfg.fileFormat dls = none) :
    ∃ t, download_album cfg resolve wfetch albumUrl fs = .ok t ∧
      t.result = AlbumResult.formatNotOffered ∧
      t.writerCalls = 0 ∧ t.albumAttempts = 1 ∧ t.retrySleeps = [] ∧
      t.fs = fs ∧
      t.logs = [LogEntry.warnNoFormat (tvalText title) albumUrl cfg.fileFormat] := by
  rw [download_album]
  cases hfuel : cfg.maxUrlAttempts - 1 with
  | zero =>
    simp only [downloadAlbumFrom, h1, h2, h3, h4]
    exact ⟨_, rfl, rfl, rfl, rfl, rfl, rfl, rfl⟩
  | succ fuel2 =>
    simp only [downloadAlbumFrom, h1, h2, h3, h4]
    exact ⟨_, rfl, rfl, rfl, rfl, rfl, rfl, rfl⟩

/-- Witness configuration requesting flac. -/
def cfgFlacW : DLConfig := { cfgW with fileFormat := "flac".data }

/-- Witness page item offering only mp3-320. -/
def itemW : PageItem :=
  ⟨[("item_id".data, TVal.int 7), ("artist".data, TVal.str "A".data),
    ("title".data, TVal.str "Alb".data)],
   some [("mp3-320".data, "dl/u.mp3".data)]⟩

/-- Witness for C7: flac requested against an mp3-320-only mapping. -/
theorem format_not_offered_no_retry_witness :
    ∃ t, download_album cfgFlacW (fun _ => AlbumPage.page itemW)
        (fun _ _ => FetchResult.connErr) "https://b/alb".data [] = .ok t ∧
      t.result = AlbumResult.formatNotOffered ∧
      t.writerCalls = 0 ∧ t.albumAttempts = 1 ∧ t.retrySleeps = [] ∧
      t.fs = [] ∧
      t.logs = [LogEntry.warnNoFormat (tvalText (TVal.str "Alb".data))
        "https://b/alb".data cfgFlacW.fileFormat] :=
  format_not_offered_no_retry cfgFlacW (fun _ => AlbumPage.page itemW)
    (fun _ _ => FetchResult.connErr) "https://b/alb".data [] itemW
    (TVal.str "Alb".data) [("mp3-320".data, "dl/u.mp3".data)] rfl rfl rfl rfl

/-- C1: the orchestrator processes the whole album list and returns
normally whatever the per-album outcomes are; every album contributes
exactly one trace in which the progress reporter advanced exactly once and
exactly one post-download wait was performed, so over n albums the
reporter advances exactly n times. -/
theorem orchestrator_progress_once_per_album (cfg : DLConfig)
    (albums : List AlbumEnv) (fs : FS) :
    ∃ ts fs2, runAlbums cfg albums fs = .ok (ts, fs2) ∧
      ts.length = albums.length ∧
      (∀ t ∈ ts, t.tqdmUpdates = 1 ∧ t.postWaits = 1) ∧
      (ts.map (fun t => t.tqdmUpdates)).sum = albums.length ∧
      (ts.map (fun t => t.postWaits)).sum = albums.length := by
  induction albums generalizing fs with
  | nil => exact ⟨[], fs, rfl, rfl, by simp, by simp, by simp⟩
  | cons a rest ih =>
    obtain ⟨t, ht, _, hu, hw⟩ :=
      downloadAlbumFrom_spec cfg a.resolve a.wfetch a.url
        (cfg.maxUrlAttempts - 1) fs 1 (le_refl 1)
    rw [if_pos rfl] at hu hw
    obtain ⟨ts, fs2, hrun, hlen, hall, hsu, hsw⟩ := ih t.fs
    have hda : download_album cfg a.resolve a.wfetch a.url fs = .ok t := by
      rw [download_album]; exact ht
    refine ⟨t :: ts, fs2, ?_, ?_, ?_, ?_, ?_⟩
    · simp only [runAlbums, hda, hrun]
    · simp [hlen]
    · intro x hx
      rcases List.mem_cons.mp hx with h | h
      · subst h; exact ⟨hu, hw⟩
      · exact hall x h
    · simp [hu, hsu, Nat.add_comm]
    · simp [hw, hsw, Nat.add_comm]

/-- Album-level attempt count of a download_album result. -/
def albumAttemptsOf : Except PyExn AlbumTrace → Nat
  | .ok t => t.albumAttempts
  | .error _ => 0

/-- C9: download_file catches every exception its body raises (IOError or
any other Exception) and returns normally, so the album-level attempt
count of download_album is a function of the page-fetch outcomes alone:
two runs differing only in the writer-visible responses use the same
number of album-level attempts. -/
theorem download_file_never_raises :
    (∀ (cfg : DLConfig) (fetches : Nat → FetchResult) (url : Str)
       (ti : List (Str × TVal)) (fuel : Nat) (fs : FS) (attempt : Nat),
       ∃ t, downloadFileFrom cfg fetches url ti fuel fs attempt = Except.ok t) ∧
    (∀ (cfg : DLConfig) (resolve : Nat → AlbumPage)
       (w1 w2 : Nat → Nat → FetchResult) (albumUrl : Str) (fs : FS),
       albumAttemptsOf (download_album cfg resolve w1 albumUrl fs) =
         albumAttemptsOf (download_album cfg resolve w2 albumUrl fs)) := by
  constructor
  · intro cfg fetches url ti fuel fs attempt
    obtain ⟨t, ht, _⟩ := downloadFileFrom_isOk cfg fetches url ti fuel fs attempt
    exact ⟨t, ht⟩
  · intro cfg resolve w1 w2 albumUrl fs
    obtain ⟨t1, h1, ha1, _, _⟩ :=
      downloadAlbumFrom_spec cfg resolve w1 albumUrl (cfg.maxUrlAttempts - 1) fs 1 (le_refl 1)
    obtain ⟨t2, h2, ha2, _, _⟩ :=
      downloadAlbumFrom_spec cfg resolve w2 albumUrl (cfg.maxUrlAttempts - 1) fs 1 (le_refl 1)
    rw [download_album, download_album, h1, h2]
    simp [albumAttemptsOf, ha1, ha2]

/-- C6 counterexample: with the content-disposition header entirely absent
(and everything else well-formed) the attempt body raises the KeyError
class of exception instead of falling back to the URL path segment; the
whole download_file call ends as a logged failure after one attempt with
nothing written, so the download does not proceed. -/
theorem missing_disposition_cex :
    (downloadFileBody cfgW [] (.resp ⟨true, some 10, none, 10⟩)
        "a/track.mp3".data tiW).result = Except.error PyExn.otherError ∧
    download_file cfgW (fun _ => .resp ⟨true, some 10, none, 10⟩)
        "a/track.mp3".data tiW [] =
      .ok ⟨.loggedFailure PyExn.otherError, [], 1, [], 0,
           [LogEntry.errFileException "a/track.mp3".data]⟩ := ⟨rfl, rfl⟩

/-- C6 corrected: the fallback to the last URL path segment applies when
the content-disposition header is present but its value does not match
FILENAME_REGEX, and the download then proceeds normally; when the header
is absent the attempt instead raises a non-transient error (KeyError) that
is logged without any fallback. -/
theorem filename_fallback_on_no_match (cfg : DLConfig) (fs : FS) (r : HttpResponse)
    (url : Str) (ti : List (Str × TVal)) (cd : Str) (exp : Nat)
    (hst : r.status2xx = true) (hlen : r.contentLength = some exp) :
    (r.contentDisposition = none →
       downloadFileBody cfg fs (.resp r) url ti =
         ⟨Except.error PyExn.otherError, fs, 0, []⟩) ∧
    (r.contentDisposition = some cd →
     searchAfter FILENAME_MARKER cd = none →
       (∀ stem,
          renderFmt (ti.map (fun kv => (kv.1, sanitizeTVal cfg.platformWin kv.2)))
              cfg.filenameFormat = some stem →
          destPath cfg url ti cd =
            some (pathJoin cfg.outputDir
              (stem ++ fileExtension (lastSegment '/' url)))) ∧
       (∀ path, destPath cfg url ti cd = some path →
          fsGet fs path = none → cfg.dryRun = false → r.bodyBytes = exp →
          (downloadFileBody cfg fs (.resp r) url ti).result =
            Except.ok (FileOutcome.downloaded path exp))) := by
  refine ⟨fun hnone => ?_,
    fun hcd hnm => ⟨fun stem hstem => ?_, fun path hpath hnew hdry hfull => ?_⟩⟩
  · simp only [downloadFileBody, hst, hnone, hlen, Bool.not_true,
      Bool.false_eq_true, if_false]
  · simp only [destPath, hnm, hstem]
  · have hbody : downloadFileBody cfg fs (.resp r) url ti =
        writePhase cfg fs r path exp [] := by
      simp only [downloadFileBody, hst, hlen, hcd, hpath, hnew, Bool.not_true,
        Bool.false_eq_true, if_false]
    rw [hbody]
    simp [writePhase, hdry, hfull]

/-- Witness for C6: with disposition value attachment (no regex match) the
path takes the mp3 extension from the URL segment track.mp3 and the body
downloads; with the header absent the body errors instead. -/
theorem filename_fallback_on_no_match_witness :
    (downloadFileBody cfgW [] (.resp ⟨true, some 10, none, 10⟩)
        "dl/track.mp3".data tiW = ⟨Except.error PyExn.otherError, [], 0, []⟩) ∧
    (destPath cfgW "dl/track.mp3".data tiW "attachment".data =
       some (pathJoin cfgW.outputDir
         ("A/A - T".data ++ fileExtension (lastSegment '/' "dl/track.mp3".data)))) ∧
    ((downloadFileBody cfgW [] (.resp ⟨true, some 1000, some "attachment".data, 1000⟩)
        "dl/track.mp3".data tiW).result =
       Except.ok (FileOutcome.downloaded "/out/A/A - T.mp3".data 1000)) := by
  have h1 := filename_fallback_on_no_match cfgW [] ⟨true, some 10, none, 10⟩
    "dl/track.mp3".data tiW "attachment".data 10 rfl rfl
  have h2 := filename_fallback_on_no_match cfgW []
    ⟨true, some 1000, some "attachment".data, 1000⟩
    "dl/track.mp3".data tiW "attachment".data 1000 rfl rfl
  exact ⟨h1.1 rfl, (h2.2 rfl rfl).1 "A/A - T".data rfl,
    (h2.2 rfl rfl).2 "/out/A/A - T.mp3".data rfl rfl rfl rfl⟩

/-- Verbose variant of the witness configuration, as produced by the -v
flag. -/
def cfgVerboseW : DLConfig := { cfgW with verbose := 1 }

/-- Album environment used by the C5 evaluation. -/
def envC5 : AlbumEnv := ⟨"alb".data, fun _ => AlbumPage.noDiv, fun _ _ => FetchResult.connErr⟩

/-- C5 code bug: once links are retrieved, any run with nonzero verbosity
hits the mangled block that prints the found-links line twice, prints the
no-album-links warning and exits with code 2 before any download; the same
run without verbosity processes its album and completes normally.  So exit
code 2 also occurs with a user collection present and a valid worker
count, against the claim. -/
theorem verbose_run_exits_2 :
    mainAfterLinks cfgVerboseW [envC5] [] = MainOutcome.exitCode 2 ∧
    (∃ ts, mainAfterLinks cfgW [envC5] [] = MainOutcome.doneNormally ts ∧
       ts.length = 1) := by
  exact ⟨rfl, ⟨_, rfl, rfl⟩⟩

end BC
